import Mathlib

/-!
Verification of the LOGDTW2002 dynamic sector economy engine and of the web
terminal client (`TerminalManager` / `GameEngine` in the web front-end).

The economy engine (`game/dynamic_markets.py`: `DynamicMarketSystem`,
`MarketData`, `EconomicEvent`, trade execution and the per-turn price update)
is modelled from the specification, since only its documentation and callers
ship with the web front-end.  The terminal client (`TerminalManager.addLine`,
`GameEngine.buyItem` / `sellItem` / `refuelShip`) is embedded directly from
the JavaScript source.

Prices and credits are modelled as rationals (`ℚ`), quantities and counters
as naturals, so every definition is executable and every concrete scenario
can be checked by `decide`.
-/

namespace LOGDTW

/-- Association-list lookup: first binding for the key, if any. -/
def lookupAL {α β : Type} [DecidableEq α] : List (α × β) → α → Option β
  | [], _ => none
  | (k, v) :: t, a => if k = a then some v else lookupAL t a

/-- Association-list update: replaces the first binding for the key,
leaves the list unchanged when the key is absent. -/
def updateAL {α β : Type} [DecidableEq α] : List (α × β) → α → β → List (α × β)
  | [], _, _ => []
  | (k, v) :: t, a, b => if k = a then (k, b) :: t else (k, v) :: updateAL t a b




/-! ## Commodity catalog (spec §3) -/

/-- Closed set of commodity categories (spec §3, Commodity). -/
inductive CommodityCategory
  | minerals
  | technology
  | luxury
  | food
  | medical
  | research
deriving DecidableEq, BEq, Repr

/-- Immutable commodity record (spec §3): id, category, base price,
base volatility. -/
structure Commodity where
  cid : Nat
  category : CommodityCategory
  basePrice : ℚ
  baseVolatility : ℚ
deriving DecidableEq, Repr

/-- Floor price: 10% of the commodity's base price (spec §3, MarketData). -/
def floorPrice (c : Commodity) : ℚ := c.basePrice / 10

/-- Ceiling price: 500% of the commodity's base price (spec §3, MarketData). -/
def ceilingPrice (c : Commodity) : ℚ := 5 * c.basePrice

/-- Clamp a candidate price into `[floorPrice, ceilingPrice]`
(spec §4.1 step 7). -/
def clampPrice (c : Commodity) (p : ℚ) : ℚ :=
  max (floorPrice c) (min (ceilingPrice c) p)


/-- Catalog lookup by commodity id. -/
def findCommodity (catalog : List Commodity) (cid : Nat) : Option Commodity :=
  catalog.find? (fun c => c.cid == cid)


/-! ## Economic events (spec §3, §4.2) -/

/-- Closed set of macro event kinds (spec §3, EconomicEvent). -/
inductive EventKind
  | shortage
  | boom
  | war
  | embargo
  | festival
deriving DecidableEq, BEq, Repr

/-- Modelled from the spec: `EconomicEvent` of `game/dynamic_markets.py`
(absent from the shipped sources).  Fields per spec §3: kind, affected
sector ids, affected commodity categories (or "all"), multiplicative price
modifier, remaining duration in turns, creation turn.  Durations are
naturals, so they can never go negative. -/
structure EconomicEvent where
  eid : Nat
  kind : EventKind
  sectors : List Nat
  categories : List CommodityCategory
  allCategories : Bool
  priceModifier : ℚ
  remainingDuration : Nat
  creationTurn : Nat
deriving DecidableEq, Repr

/-- Does the event target this (sector, category)? (spec §3: an event's
modifier is only applied to MarketData for sectors/categories it targets). -/
def eventTargets (e : EconomicEvent) (sid : Nat) (cat : CommodityCategory) : Bool :=
  e.sectors.contains sid && (e.allCategories || e.categories.contains cat)

/-- Modelled from the spec: the combined event term of the price update
(spec §4.1 step 3, §4.2): the product of the modifiers of all *active*
(remaining duration > 0) events targeting this (sector, category); expired
events contribute nothing. -/
def eventModifier (events : List EconomicEvent) (sid : Nat) (cat : CommodityCategory) : ℚ :=
  (events.filter fun e =>
      decide (0 < e.remainingDuration) && eventTargets e sid cat).foldl
    (fun acc e => acc * e.priceModifier) 1

/-- Modelled from the spec: the per-turn event tick of the
EconomicEventEngine (spec §4.2, §4.5): every event's remaining duration is
decremented by one and events whose duration reaches zero are removed from
the active set.  Random spawning of new events is not modelled; events enter
the system through `addEvent`. -/
def tickEvents (events : List EconomicEvent) : List EconomicEvent :=
  events.filterMap fun e =>
    if 2 ≤ e.remainingDuration then
      some { e with remainingDuration := e.remainingDuration - 1 }
    else none

/-! ## Sector economies and market data (spec §3) -/

/-- Modelled from the spec: `SectorEconomy` of `game/dynamic_markets.py`
(absent from the shipped sources).  Per spec §3 plus the sector-specific
passive-regeneration supply cap of spec §4.1 step 8. -/
structure SectorEconomy where
  sectorId : Nat
  wealthLevel : ℚ
  population : Nat
  industrialCapacity : ℚ
  specialization : Option CommodityCategory
  specializationModifier : ℚ
  tradeRoutes : List Nat
  supplyCap : Nat
deriving DecidableEq, Repr

/-- Derived price-trend label (spec §3, MarketData). -/
inductive Trend
  | rising
  | falling
  | stable
deriving DecidableEq, BEq, Repr

/-- Modelled from the spec: `MarketData` of `game/dynamic_markets.py`
(absent from the shipped sources): current price, supply, demand,
volatility, trend (spec §3). -/
structure MarketData where
  price : ℚ
  supply : Nat
  demand : Nat
  volatility : ℚ
  trend : Trend
deriving DecidableEq, Repr

/-- Baseline demand toward which unmet demand decays (spec §4.1 step 8). -/
def demandBaseline : Nat := 100

/-- Modelled from the spec: the bounded pseudo-random noise unit of spec
§4.1 step 5, deterministically seeded by (turn, sector id, commodity id) so
re-runs are reproducible; always in [-1, 1]. -/
def noiseUnit (turn sid cid : Nat) : ℚ :=
  (((turn * 2654435761 + sid * 40503 + cid * 69069 + 12345) % 201 : Nat) - (100 : ℤ)) / 100

/-- Modelled from the spec: the table-driven seasonal multiplier of spec
§4.1 step 4, keyed by `turn mod season_length` (season length 4), bounded
to ±10%. -/
def seasonalFactor (turn : Nat) : ℚ :=
  match turn % 4 with
  | 0 => 1
  | 1 => 11 / 10
  | 2 => 1
  | _ => 9 / 10

/-- Modelled from the spec: the PriceUpdateAlgorithm of spec §4.1 — the pure
per-turn recomputation of one MarketData entry.  Steps: supply/demand
target (step 1, with `max _ 1` guards so the ratio is defined when supply or
demand is zero), specialization modifier (step 2), active-event modifier
(step 3), seasonal term (step 4), bounded noise (step 5), 70/30 damping
(step 6), clamping to [floor, ceiling] (step 7), passive supply regeneration
and demand decay toward the baseline (step 8), and the dead-banded trend
label (step 9, against the previous price, ±5% dead-band). -/
def updateMarketData (c : Commodity) (sec : SectorEconomy)
    (events : List EconomicEvent) (turn : Nat) (md : MarketData) : MarketData :=
  let target : ℚ := c.basePrice * (max md.demand 1 : Nat) / (max md.supply 1 : Nat)
  let specd : ℚ :=
    match sec.specialization with
    | some cat => if cat = c.category then target * sec.specializationModifier else target
    | none => target
  let evd : ℚ := specd * eventModifier events sec.sectorId c.category
  let seasoned : ℚ := evd * seasonalFactor turn
  let noised : ℚ := seasoned * (1 + md.volatility * noiseUnit turn sec.sectorId c.cid)
  let damped : ℚ := (7 / 10) * md.price + (3 / 10) * noised
  let newPrice : ℚ := clampPrice c damped
  let regen : Nat := (sec.industrialCapacity * 5).floor.toNat
  let newSupply : Nat := min (md.supply + regen) (max sec.supplyCap md.supply)
  let newDemand : Nat :=
    if demandBaseline < md.demand then md.demand - 1
    else if md.demand < demandBaseline then md.demand + 1
    else md.demand
  let newTrend : Trend :=
    if md.price * (21 / 20) < newPrice then .rising
    else if newPrice < md.price * (19 / 20) then .falling
    else .stable
  { price := newPrice, supply := newSupply, demand := newDemand,
    volatility := c.baseVolatility, trend := newTrend }

/-! ## Market history (spec §3, MarketHistory) -/

/-- One MarketHistory entry (spec §3): turn number, sector id, commodity id,
side, quantity, unit price, agent id. -/
structure HistoryEntry where
  turn : Nat
  sectorId : Nat
  commodityId : Nat
  isBuy : Bool
  quantity : Nat
  unitPrice : ℚ
  agentId : Nat
deriving DecidableEq, Repr

/-- Default per-sector history capacity (spec §3: fixed-capacity ring
buffer, default 100 entries per sector). -/
def historyCapacity : Nat := 100

/-- Modelled from the spec: appending one entry to a sector's bounded
history (spec §3).  Entries are kept newest first; when the buffer is over
capacity the oldest entries (at the tail) are evicted, FIFO. -/
def pushHistory (h : List HistoryEntry) (e : HistoryEntry) : List HistoryEntry :=
  (e :: h).take historyCapacity

/-- Modelled from the spec: recording a trade in the per-sector history
table of the facade. -/
def recordTrade (hist : List (Nat × List HistoryEntry)) (sid : Nat)
    (e : HistoryEntry) : List (Nat × List HistoryEntry) :=
  match lookupAL hist sid with
  | some l => updateAL hist sid (pushHistory l e)
  | none => (sid, [e]) :: hist

/-! ## The facade state (spec §4.5, DynamicMarketSystem) -/

/-- Modelled from the spec: `DynamicMarketSystem` of
`game/dynamic_markets.py` (absent from the shipped sources): owns the
catalog, all SectorEconomy and MarketData state, the active events, the
per-sector histories, and the current turn number. -/
structure DynamicMarketSystem where
  catalog : List Commodity
  sectors : List (Nat × SectorEconomy)
  marketData : List ((Nat × Nat) × MarketData)
  events : List EconomicEvent
  history : List (Nat × List HistoryEntry)
  turn : Nat
deriving DecidableEq, Repr

/-- The per-entry step of `advance_turn`: recompute one MarketData entry via
the PriceUpdateAlgorithm when its sector and commodity resolve, otherwise
leave it unchanged. -/
def stepMD (sys : DynamicMarketSystem) (turn : Nat) (k : Nat × Nat)
    (md : MarketData) : MarketData :=
  match lookupAL sys.sectors k.1, findCommodity sys.catalog k.2 with
  | some sec, some c => updateMarketData c sec sys.events turn md
  | _, _ => md

/-- Modelled from the spec: `advance_turn(turn_number)` (spec §4.5): run the
PriceUpdateAlgorithm for every (sector, commodity) pair with existing
MarketData, then run the event engine's per-turn tick (decay durations and
prune expired events).  Random event spawning is not modelled. -/
def advanceTurn (sys : DynamicMarketSystem) (turn : Nat) : DynamicMarketSystem :=
  { sys with
    marketData := sys.marketData.map fun p => (p.1, stepMD sys turn p.1 p.2)
    events := tickEvents sys.events
    turn := turn }

/-- Iterated `advance_turn` over consecutive turn numbers. -/
def advanceTurns (sys : DynamicMarketSystem) (t : Nat) : Nat → DynamicMarketSystem
  | 0 => sys
  | n + 1 => advanceTurns (advanceTurn sys t) (t + 1) n

/-- Explicitly scheduled (scripted) event injection (spec §4.2). -/
def addEvent (sys : DynamicMarketSystem) (e : EconomicEvent) : DynamicMarketSystem :=
  { sys with events := e :: sys.events }

/-- The stored history of one sector, newest first. -/
def histOf (sys : DynamicMarketSystem) (sid : Nat) : List HistoryEntry :=
  (lookupAL sys.history sid).getD []

/-- `get_history(sector_id, limit)`: the most recent at-most-`limit`
entries for a sector, newest first (spec §6). -/
def get_history (sys : DynamicMarketSystem) (sid : Nat) (limit : Nat) :
    List HistoryEntry :=
  (histOf sys sid).take limit

/-- Every per-sector history respects the ring-buffer capacity. -/
def historyBounded (sys : DynamicMarketSystem) : Prop :=
  ∀ sid, (histOf sys sid).length ≤ historyCapacity

/-- All existing market entries carry a price within the commodity's
floor/ceiling band (spec §8, price bounds). -/
def priceInBounds (sys : DynamicMarketSystem) : Prop :=
  ∀ sid cid md c, lookupAL sys.marketData (sid, cid) = some md →
    findCommodity sys.catalog cid = some c →
    floorPrice c ≤ md.price ∧ md.price ≤ ceilingPrice c

/-! ## Trade execution (spec §4.3, TradeExecutionEngine) -/

/-- Typed trade error taxonomy (spec §7). -/
inductive TradeError
  | UnknownMarketError
  | InvalidQuantityError
  | InsufficientFundsError
  | InsufficientSupplyError
  | InsufficientInventoryError
  | DuplicateInitializationError
deriving DecidableEq, Repr

/-- A trade order (spec §3, TradeOrder).  The quantity is the raw
caller-supplied number; validation requires it to be a positive integer. -/
structure TradeOrder where
  agentId : Nat
  sectorId : Nat
  commodityId : Nat
  quantity : ℚ
  isBuy : Bool
deriving DecidableEq, Repr

/-- The trading agent's funds and holding of the traded commodity, owned by
the caller's session (spec §4.3). -/
structure AgentState where
  credits : ℚ
  holding : Nat
deriving DecidableEq, Repr

/-- The result of a successful trade (spec §6): realized unit price, total,
new supply and demand. -/
structure TradeResult where
  unitPrice : ℚ
  total : ℚ
  newSupply : Nat
  newDemand : Nat
deriving DecidableEq, Repr

/-- The small demand shift a trade of quantity `q` causes
(spec §4.3: "demand += small function of quantity"). -/
def demandBump (q : Nat) : Nat := q / 10 + 1

/-- The market-side mutations of a successful trade (spec §4.3): buys
decrement supply and bump demand, sells do the inverse; one history entry is
appended at the sector's bounded log.  The quoted price is left untouched. -/
def applyTrade (sys : DynamicMarketSystem) (o : TradeOrder) (md : MarketData)
    (q : Nat) : DynamicMarketSystem :=
  let md' : MarketData :=
    if o.isBuy then
      { md with supply := md.supply - q, demand := md.demand + demandBump q }
    else
      { md with supply := md.supply + q, demand := md.demand - demandBump q }
  let entry : HistoryEntry :=
    { turn := sys.turn, sectorId := o.sectorId, commodityId := o.commodityId,
      isBuy := o.isBuy, quantity := q, unitPrice := md.price,
      agentId := o.agentId }
  { sys with
    marketData := updateAL sys.marketData (o.sectorId, o.commodityId) md'
    history := recordTrade sys.history o.sectorId entry }

/-- Modelled from the spec: `execute_trade` of `game/dynamic_markets.py`
(absent from the shipped sources), spec §4.3.  Validation in order:
(1) sector, commodity and market entry must exist, else `UnknownMarketError`;
(2) the quantity must be a positive integer, else `InvalidQuantityError`;
(3) for a buy the agent must afford `price × quantity`, else
`InsufficientFundsError`; (4) a buy must not drain supply below zero, else
`InsufficientSupplyError`; (5) a sell needs sufficient holding, else
`InsufficientInventoryError`.  On success the market-side mutations are
applied atomically and the realized unit price and total are returned; on
any failure the input system and agent are returned untouched. -/
def executeTrade (sys : DynamicMarketSystem) (agent : AgentState)
    (o : TradeOrder) :
    Except TradeError TradeResult × DynamicMarketSystem × AgentState :=
  match lookupAL sys.sectors o.sectorId, findCommodity sys.catalog o.commodityId,
      lookupAL sys.marketData (o.sectorId, o.commodityId) with
  | some _, some _, some md =>
    if 0 < o.quantity ∧ o.quantity.den = 1 then
      if o.isBuy then
        if agent.credits < md.price * o.quantity.num.toNat then
          (.error .InsufficientFundsError, sys, agent)
        else if md.supply < o.quantity.num.toNat then
          (.error .InsufficientSupplyError, sys, agent)
        else
          (.ok ⟨md.price, md.price * o.quantity.num.toNat,
             md.supply - o.quantity.num.toNat,
             md.demand + demandBump o.quantity.num.toNat⟩,
           applyTrade sys o md o.quantity.num.toNat,
           ⟨agent.credits - md.price * o.quantity.num.toNat,
            agent.holding + o.quantity.num.toNat⟩)
      else
        if agent.holding < o.quantity.num.toNat then
          (.error .InsufficientInventoryError, sys, agent)
        else
          (.ok ⟨md.price, md.price * o.quantity.num.toNat,
             md.supply + o.quantity.num.toNat,
             md.demand - demandBump o.quantity.num.toNat⟩,
           applyTrade sys o md o.quantity.num.toNat,
           ⟨agent.credits + md.price * o.quantity.num.toNat,
            agent.holding - o.quantity.num.toNat⟩)
    else (.error .InvalidQuantityError, sys, agent)
  | _, _, _ => (.error .UnknownMarketError, sys, agent)

/-! ## Web terminal client

Embedded from the JavaScript front-end (`TerminalManager` and `GameEngine`
in the web client sources).
-/

/-- One rendered terminal line: the `div.terminal-line` with its prompt span
and content span.  Both spans are filled via `textContent`, so the stored
strings are the exact plain text displayed, never parsed as HTML
(`TerminalManager.addLine`). -/
structure TermLine where
  cls : String
  promptText : String
  contentText : String
deriving DecidableEq, Repr

/-- The terminal screen: DOM children oldest first, plus the `lineCount`
counter and the `maxLines` bound kept by `TerminalManager`. -/
structure TerminalState where
  lines : List TermLine
  lineCount : Nat
  maxLines : Nat
deriving DecidableEq, Repr

/-- The line element `addLine` builds for a `(prefix, text, type)` call:
class `terminal-line <type>`, prompt `<prefix>>`, content set to the text
verbatim via `textContent`. -/
def mkLine (c : String × String × String) : TermLine :=
  { cls := "terminal-line " ++ c.2.2, promptText := c.1 ++ ">",
    contentText := c.2.1 }

/-- `TerminalManager.addLine(prefix, text, type)`: append the new line to
the screen and bump `lineCount`; if the count now exceeds `maxLines`, remove
the screen's first child (the oldest line) and decrement the count. -/
def TerminalManager.addLine (t : TerminalState) (c : String × String × String) :
    TerminalState :=
  if t.lineCount + 1 > t.maxLines then
    match t.lines ++ [mkLine c] with
    | [] => { t with lines := [], lineCount := t.lineCount + 1 }
    | _ :: rest => { t with lines := rest, lineCount := t.lineCount }
  else { t with lines := t.lines ++ [mkLine c], lineCount := t.lineCount + 1 }

/-- A sequence of `addLine` calls. -/
def TerminalManager.addLines (t : TerminalState)
    (cs : List (String × String × String)) : TerminalState :=
  cs.foldl TerminalManager.addLine t

/-- The terminal as constructed by `TerminalManager`'s constructor:
no lines yet, `maxLines = 100`, `lineCount = 0`. -/
def initTerminal : TerminalState :=
  { lines := [], lineCount := 0, maxLines := 100 }

/-- A trade response from the server as seen by `GameEngine.buyItem` /
`sellItem`: the success flag and the (possibly absent) message string. -/
structure TradeResponse where
  success : Bool
  message : Option String
deriving DecidableEq, Repr

/-- JavaScript `a || b` on an optional string: `undefined`/`null` and the
empty string are falsy, so the fallback is used for all three. -/
def jsOr (m : Option String) (fallback : String) : String :=
  match m with
  | none => fallback
  | some s => if s = "" then fallback else s

/-- JavaScript string coercion of a possibly-undefined value (used on the
success path, where the message is rendered without a fallback). -/
def jsStr (m : Option String) : String :=
  match m with
  | none => "undefined"
  | some s => s

/-- The terminal output of `GameEngine.buyItem` / `sellItem` on a server
response: on success `addLine('TRADE', response.message, 'success')`, on
failure `addLine('ERROR', response.message || 'Trade failed', 'error')`. -/
def GameEngine.renderTradeResponse (t : TerminalState) (r : TradeResponse) :
    TerminalState :=
  if r.success then
    TerminalManager.addLine t ("TRADE", jsStr r.message, "success")
  else
    TerminalManager.addLine t ("ERROR", jsOr r.message "Trade failed", "error")

/-- The player fields `GameEngine.refuelShip` touches. -/
structure Player where
  credits : ℚ
  fuel : ℚ
  max_fuel : ℚ
deriving DecidableEq, Repr

/-- `GameEngine.refuelShip()`: with `cost = 100`, if the player's credits
cover the cost, debit it, set fuel to `max_fuel` and print a success line;
otherwise print `'Insufficient credits for refuel'` and change nothing. -/
def GameEngine.refuelShip (p : Player) (t : TerminalState) :
    Player × TerminalState × Bool :=
  let t1 := TerminalManager.addLine t
    ("SYSTEM", "Initiating refuel sequence...", "info")
  let cost : ℚ := 100
  if cost ≤ p.credits then
    ({ p with credits := p.credits - cost, fuel := p.max_fuel },
     TerminalManager.addLine t1
       ("SUCCESS", "✅ Refuel complete! Cost: 100 credits", "success"),
     true)
  else
    (p, TerminalManager.addLine t1
      ("ERROR", "Insufficient credits for refuel", "error"),
     false)


/-! ## Concrete fixtures (spec §8, concrete scenarios) -/

/-- The Food commodity of concrete scenario 1: base price 50. -/
def foodCommodity : Commodity :=
  { cid := 0, category := .food, basePrice := 50, baseVolatility := 1 / 10 }

/-- Sector 1 of concrete scenario 1. -/
def sampleSector : SectorEconomy :=
  { sectorId := 1, wealthLevel := 1, population := 500000,
    industrialCapacity := 6 / 5, specialization := some .food,
    specializationModifier := 11 / 10, tradeRoutes := [2, 3], supplyCap := 500 }

/-- Scenario-1 market entry: price 50, supply 100, demand 100, no events. -/
def sampleMD : MarketData :=
  { price := 50, supply := 100, demand := 100, volatility := 1 / 10,
    trend := .stable }

/-- Scenario-1 system: sector 1 trading Food at base price 50 on turn 0
with zero events. -/
def sampleSystem : DynamicMarketSystem :=
  { catalog := [foodCommodity], sectors := [(1, sampleSector)],
    marketData := [((1, 0), sampleMD)], events := [], history := [], turn := 0 }

/-- A two-turn shortage event on sector 1 food, modifier ×3/2. -/
def sampleEvent : EconomicEvent :=
  { eid := 5, kind := .shortage, sectors := [1], categories := [.food],
    allCategories := false, priceModifier := 3 / 2, remainingDuration := 2,
    creationTurn := 0 }

/-- An already-expired event (remaining duration zero). -/
def expiredEvent : EconomicEvent :=
  { eid := 6, kind := .boom, sectors := [1], categories := [],
    allCategories := true, priceModifier := 3 / 5, remainingDuration := 0,
    creationTurn := 0 }

/-! ## Helper lemmas -/

theorem lookupAL_updateAL_self {α β : Type} [DecidableEq α]
    (l : List (α × β)) (a : α) (b v : β) (h : lookupAL l a = some v) :
    lookupAL (updateAL l a b) a = some b := by
  induction l with
  | nil => simp [lookupAL] at h
  | cons p t ih =>
    obtain ⟨k, w⟩ := p
    by_cases hk : k = a
    · simp [lookupAL, updateAL, hk]
    · simp only [lookupAL, updateAL, if_neg hk] at h ⊢
      exact ih h

theorem lookupAL_updateAL_ne {α β : Type} [DecidableEq α]
    (l : List (α × β)) (a k : α) (b : β) (h : k ≠ a) :
    lookupAL (updateAL l a b) k = lookupAL l k := by
  induction l with
  | nil => simp [updateAL]
  | cons p t ih =>
    obtain ⟨k', w⟩ := p
    by_cases hk : k' = a
    · subst hk
      simp [lookupAL, updateAL, Ne.symm h]
    · simp only [updateAL, if_neg hk, lookupAL]
      by_cases hk2 : k' = k <;> simp [hk2, ih]

theorem lookupAL_mapVal {α β : Type} [DecidableEq α]
    (g : α → β → β) (l : List (α × β)) (k : α) :
    lookupAL (l.map fun p => (p.1, g p.1 p.2)) k = (lookupAL l k).map (g k) := by
  induction l with
  | nil => simp [lookupAL]
  | cons p t ih =>
    obtain ⟨k', w⟩ := p
    by_cases hk : k' = k
    · subst hk; simp [lookupAL]
    · simp [lookupAL, hk, ih]

theorem clampPrice_bounds (c : Commodity) (h : 0 < c.basePrice) (p : ℚ) :
    floorPrice c ≤ clampPrice c p ∧ clampPrice c p ≤ ceilingPrice c := by
  constructor
  · exact le_max_left _ _
  · apply max_le
    · unfold floorPrice ceilingPrice
      nlinarith
    · exact min_le_left _ _

theorem findCommodity_mem {catalog : List Commodity} {cid : Nat} {c : Commodity}
    (h : findCommodity catalog cid = some c) : c ∈ catalog :=
  List.mem_of_find?_eq_some h

theorem applyTrade_catalog (sys : DynamicMarketSystem) (o : TradeOrder)
    (md : MarketData) (q : Nat) : (applyTrade sys o md q).catalog = sys.catalog := rfl

theorem applyTrade_events (sys : DynamicMarketSystem) (o : TradeOrder)
    (md : MarketData) (q : Nat) : (applyTrade sys o md q).events = sys.events := rfl

theorem applyTrade_price_frame (sys : DynamicMarketSystem) (o : TradeOrder)
    (md : MarketData) (q : Nat)
    (hmd : lookupAL sys.marketData (o.sectorId, o.commodityId) = some md)
    (k : Nat × Nat) :
    (lookupAL (applyTrade sys o md q).marketData k).map (fun m => m.price) =
      (lookupAL sys.marketData k).map (fun m => m.price) := by
  by_cases hk : k = (o.sectorId, o.commodityId)
  · subst hk
    cases hb : o.isBuy <;>
      simp [applyTrade, hb, lookupAL_updateAL_self _ _ _ _ hmd, hmd]
  · cases hb : o.isBuy <;>
      simp [applyTrade, hb, lookupAL_updateAL_ne _ _ _ _ hk]

/-- Case analysis of `executeTrade`: every validation failure returns the
matching error together with the untouched system and agent. -/
theorem executeTrade_error_frame (sys : DynamicMarketSystem) (agent : AgentState)
    (o : TradeOrder) (e : TradeError)
    (h : (executeTrade sys agent o).1 = .error e) :
    (executeTrade sys agent o).2.1 = sys ∧ (executeTrade sys agent o).2.2 = agent := by
  unfold executeTrade at h ⊢
  cases hs : lookupAL sys.sectors o.sectorId <;>
    cases hc : findCommodity sys.catalog o.commodityId <;>
      cases hm : lookupAL sys.marketData (o.sectorId, o.commodityId) <;>
        simp only [hs, hc, hm] at h ⊢
  all_goals first
    | exact ⟨trivial, trivial⟩
    | exact ⟨rfl, rfl⟩
    | (split_ifs at h ⊢ <;> simp_all)

/-- Case analysis of `executeTrade` on success: the market entry exists, the
realized unit price is its quoted price, the system mutation is exactly
`applyTrade`, and the agent delta matches the side of the trade. -/
theorem executeTrade_ok_shape (sys : DynamicMarketSystem) (agent : AgentState)
    (o : TradeOrder) (res : TradeResult)
    (h : (executeTrade sys agent o).1 = .ok res) :
    ∃ md, lookupAL sys.marketData (o.sectorId, o.commodityId) = some md ∧
      res.unitPrice = md.price ∧
      (0 < o.quantity ∧ o.quantity.den = 1) ∧
      (executeTrade sys agent o).2.1 = applyTrade sys o md o.quantity.num.toNat ∧
      (o.isBuy = true →
        ¬ agent.credits < md.price * o.quantity.num.toNat ∧
        ¬ md.supply < o.quantity.num.toNat ∧
        (executeTrade sys agent o).2.2 =
          ⟨agent.credits - md.price * o.quantity.num.toNat,
           agent.holding + o.quantity.num.toNat⟩ ∧
        res = ⟨md.price, md.price * o.quantity.num.toNat,
          md.supply - o.quantity.num.toNat,
          md.demand + demandBump o.quantity.num.toNat⟩) ∧
      (o.isBuy = false →
        ¬ agent.holding < o.quantity.num.toNat ∧
        (executeTrade sys agent o).2.2 =
          ⟨agent.credits + md.price * o.quantity.num.toNat,
           agent.holding - o.quantity.num.toNat⟩ ∧
        res = ⟨md.price, md.price * o.quantity.num.toNat,
          md.supply + o.quantity.num.toNat,
          md.demand - demandBump o.quantity.num.toNat⟩) := by
  unfold executeTrade at h ⊢
  cases hs : lookupAL sys.sectors o.sectorId <;>
    cases hc : findCommodity sys.catalog o.commodityId <;>
      cases hm : lookupAL sys.marketData (o.sectorId, o.commodityId) <;>
        simp only [hs, hc, hm] at h ⊢
  all_goals try exact Except.noConfusion h
  rename_i md
  refine ⟨md, rfl, ?_⟩
  split_ifs at h ⊢ <;> simp_all <;> try (cases h; simp)

/-- The price-frame property of `executeTrade`: the quoted price of every
market entry is untouched, whatever the outcome. -/
theorem executeTrade_price_frame (sys : DynamicMarketSystem) (agent : AgentState)
    (o : TradeOrder) (k : Nat × Nat) :
    (lookupAL (executeTrade sys agent o).2.1.marketData k).map (fun m => m.price) =
      (lookupAL sys.marketData k).map (fun m => m.price) := by
  cases hres : (executeTrade sys agent o).1 with
  | error e =>
    rw [(executeTrade_error_frame sys agent o e hres).1]
  | ok res =>
    obtain ⟨md, hmd, _, _, hsys, _⟩ := executeTrade_ok_shape sys agent o res hres
    rw [hsys]
    exact applyTrade_price_frame sys o md _ hmd k

theorem executeTrade_catalog (sys : DynamicMarketSystem) (agent : AgentState)
    (o : TradeOrder) : (executeTrade sys agent o).2.1.catalog = sys.catalog := by
  cases hres : (executeTrade sys agent o).1 with
  | error e => rw [(executeTrade_error_frame sys agent o e hres).1]
  | ok res =>
    obtain ⟨md, hmd, _, _, hsys, _⟩ := executeTrade_ok_shape sys agent o res hres
    rw [hsys]
    rfl

theorem eventModifier_expired (e : EconomicEvent) (evs : List EconomicEvent)
    (sid : Nat) (cat : CommodityCategory) (h : e.remainingDuration = 0) :
    eventModifier (e :: evs) sid cat = eventModifier evs sid cat := by
  simp [eventModifier, List.filter_cons, h]

theorem updateMarketData_expired (c : Commodity) (sec : SectorEconomy)
    (e : EconomicEvent) (evs : List EconomicEvent) (turn : Nat) (md : MarketData)
    (h : e.remainingDuration = 0) :
    updateMarketData c sec (e :: evs) turn md = updateMarketData c sec evs turn md := by
  simp only [updateMarketData, eventModifier_expired e evs sec.sectorId c.category h]

theorem tickEvents_expired (e : EconomicEvent) (evs : List EconomicEvent)
    (h : e.remainingDuration = 0) : tickEvents (e :: evs) = tickEvents evs := by
  simp [tickEvents, List.filterMap_cons, h]

theorem advanceTurn_events (sys : DynamicMarketSystem) (t : Nat) :
    (advanceTurn sys t).events = tickEvents sys.events := rfl

theorem advanceTurn_catalog (sys : DynamicMarketSystem) (t : Nat) :
    (advanceTurn sys t).catalog = sys.catalog := rfl

theorem advanceTurns_events_nil (n : Nat) : ∀ (sys : DynamicMarketSystem) (t : Nat),
    sys.events = [] → (advanceTurns sys t n).events = [] := by
  induction n with
  | zero => intro sys t h; exact h
  | succ n ih =>
    intro sys t h
    exact ih _ _ (by rw [advanceTurn_events, h]; rfl)

theorem tickEvents_single (e : EconomicEvent) :
    tickEvents [e] =
      if 2 ≤ e.remainingDuration then
        [{ e with remainingDuration := e.remainingDuration - 1 }]
      else [] := by
  simp [tickEvents, List.filterMap_cons]
  split_ifs <;> simp

theorem advanceTurns_single_event (n : Nat) :
    ∀ (sys : DynamicMarketSystem) (t : Nat) (e : EconomicEvent),
    sys.events = [e] → 0 < e.remainingDuration →
    (advanceTurns sys t n).events =
      if n < e.remainingDuration then
        [{ e with remainingDuration := e.remainingDuration - n }]
      else [] := by
  induction n with
  | zero =>
    intro sys t e h hd
    rw [if_pos hd]
    simpa using h
  | succ n ih =>
    intro sys t e h hd
    show (advanceTurns (advanceTurn sys t) (t + 1) n).events = _
    by_cases h2 : 2 ≤ e.remainingDuration
    · have hev : (advanceTurn sys t).events =
          [{ e with remainingDuration := e.remainingDuration - 1 }] := by
        rw [advanceTurn_events, h, tickEvents_single, if_pos h2]
      rw [ih (advanceTurn sys t) (t + 1) _ hev (by simp; omega)]
      by_cases h3 : n + 1 < e.remainingDuration
      · rw [if_pos (by simp; omega), if_pos h3]
        simp only [List.cons.injEq, and_true]
        congr 1
        omega
      · rw [if_neg (by simp; omega), if_neg h3]
    · have hd1 : e.remainingDuration = 1 := by omega
      have hev : (advanceTurn sys t).events = [] := by
        rw [advanceTurn_events, h, tickEvents_single, if_neg (by omega)]
      rw [advanceTurns_events_nil n _ _ hev, if_neg (by omega)]

theorem stepMD_expired (sys : DynamicMarketSystem) (e : EconomicEvent) (t : Nat)
    (he : e.remainingDuration = 0) (k : Nat × Nat) (md : MarketData) :
    stepMD (addEvent sys e) t k md = stepMD sys t k md := by
  unfold stepMD addEvent
  dsimp only
  cases hs : lookupAL sys.sectors k.1 with
  | none => rfl
  | some sec =>
    cases hc : findCommodity sys.catalog k.2 with
    | none => rfl
    | some c => exact updateMarketData_expired c sec e sys.events t md he

theorem advanceTurn_expired (sys : DynamicMarketSystem) (e : EconomicEvent)
    (t : Nat) (he : e.remainingDuration = 0) :
    advanceTurn (addEvent sys e) t = advanceTurn sys t := by
  unfold advanceTurn
  have hmap : ((addEvent sys e).marketData.map
        fun p => (p.1, stepMD (addEvent sys e) t p.1 p.2)) =
      sys.marketData.map fun p => (p.1, stepMD sys t p.1 p.2) := by
    have hsame : (addEvent sys e).marketData = sys.marketData := rfl
    rw [hsame]
    congr 1
    funext p
    rw [stepMD_expired sys e t he]
  rw [hmap]
  have hev : tickEvents (addEvent sys e).events = tickEvents sys.events :=
    tickEvents_expired e sys.events he
  rw [hev]
  rfl

theorem advanceTurn_priceInBounds (sys : DynamicMarketSystem)
    (hbase : ∀ c ∈ sys.catalog, 0 < c.basePrice) (hsys : priceInBounds sys)
    (t : Nat) : priceInBounds (advanceTurn sys t) := by
  intro sid cid md c hmd hc
  rw [advanceTurn_catalog] at hc
  have hmd' : lookupAL (sys.marketData.map fun p => (p.1, stepMD sys t p.1 p.2))
      (sid, cid) = some md := hmd
  rw [lookupAL_mapVal] at hmd'
  cases hpre : lookupAL sys.marketData (sid, cid) with
  | none => rw [hpre] at hmd'; exact absurd hmd' (by simp)
  | some md0 =>
    rw [hpre] at hmd'
    have hstep : stepMD sys t (sid, cid) md0 = md := by
      simpa using hmd'
    revert hstep
    unfold stepMD
    dsimp only
    cases hs2 : lookupAL sys.sectors sid with
    | none =>
      intro hstep
      exact hstep ▸ hsys sid cid md0 c hpre hc
    | some sec =>
      cases hc2 : findCommodity sys.catalog cid with
      | none =>
        intro hstep
        exact hstep ▸ hsys sid cid md0 c hpre hc
      | some c2 =>
        intro hstep
        have hcc : c2 = c := by
          rw [hc2] at hc
          injection hc
        subst hcc
        rw [← hstep]
        exact clampPrice_bounds c2 (hbase c2 (findCommodity_mem hc2)) _

theorem executeTrade_priceInBounds (sys : DynamicMarketSystem)
    (hsys : priceInBounds sys) (agent : AgentState) (o : TradeOrder) :
    priceInBounds (executeTrade sys agent o).2.1 := by
  intro sid cid md c hmd hc
  have hframe := executeTrade_price_frame sys agent o (sid, cid)
  rw [hmd] at hframe
  cases hpre : lookupAL sys.marketData (sid, cid) with
  | none => rw [hpre] at hframe; exact absurd hframe (by simp)
  | some md0 =>
    rw [hpre] at hframe
    have hpe : md.price = md0.price := by simpa using hframe
    rw [executeTrade_catalog] at hc
    rw [hpe]
    exact hsys sid cid md0 c hpre hc

theorem advanceTurns_priceInBounds (n : Nat) :
    ∀ (sys : DynamicMarketSystem) (t : Nat),
    (∀ c ∈ sys.catalog, 0 < c.basePrice) → priceInBounds sys →
    priceInBounds (advanceTurns sys t n) := by
  induction n with
  | zero => intro sys t _ h; exact h
  | succ n ih =>
    intro sys t hb h
    exact ih (advanceTurn sys t) (t + 1)
      (by rw [advanceTurn_catalog]; exact hb)
      (advanceTurn_priceInBounds sys hb h t)

theorem take_append_take {α : Type} (l t : List α) (n : Nat) :
    (l ++ t.take n).take n = (l ++ t).take n := by
  rw [List.take_append_eq_append_take, List.take_append_eq_append_take,
    List.take_take]
  congr 1
  simp

theorem pushHistory_length (h : List HistoryEntry) (e : HistoryEntry) :
    (pushHistory h e).length ≤ historyCapacity := by
  simp [pushHistory]

theorem foldl_pushHistory (es : List HistoryEntry) :
    ∀ h : List HistoryEntry, h.length ≤ historyCapacity →
    es.foldl pushHistory h = (es.reverse ++ h).take historyCapacity := by
  induction es with
  | nil =>
    intro h hh
    simp [List.take_of_length_le hh]
  | cons e es ih =>
    intro h hh
    rw [List.foldl_cons, ih (pushHistory h e) (pushHistory_length h e),
      List.reverse_cons, List.append_assoc]
    show (es.reverse ++ (e :: h).take historyCapacity).take historyCapacity = _
    rw [take_append_take]
    rfl

theorem histOf_recordTrade_self (hist : List (Nat × List HistoryEntry))
    (sid : Nat) (e : HistoryEntry) :
    (lookupAL (recordTrade hist sid e) sid).getD [] =
      pushHistory ((lookupAL hist sid).getD []) e := by
  unfold recordTrade
  cases hl : lookupAL hist sid with
  | some l => rw [lookupAL_updateAL_self _ _ _ _ hl]; simp
  | none => simp [lookupAL, pushHistory, historyCapacity]

theorem histOf_recordTrade_ne (hist : List (Nat × List HistoryEntry))
    (sid sid' : Nat) (e : HistoryEntry) (h : sid' ≠ sid) :
    lookupAL (recordTrade hist sid e) sid' = lookupAL hist sid' := by
  unfold recordTrade
  cases hl : lookupAL hist sid with
  | some l => exact lookupAL_updateAL_ne _ _ _ _ h
  | none => simp [lookupAL, Ne.symm h]

theorem executeTrade_histOf_ok (sys : DynamicMarketSystem) (agent : AgentState)
    (o : TradeOrder) (res : TradeResult)
    (h : (executeTrade sys agent o).1 = .ok res) :
    (∃ entry, histOf (executeTrade sys agent o).2.1 o.sectorId =
        pushHistory (histOf sys o.sectorId) entry) ∧
    ∀ sid, sid ≠ o.sectorId →
      histOf (executeTrade sys agent o).2.1 sid = histOf sys sid := by
  obtain ⟨md, hmd, _, _, hsys, _⟩ := executeTrade_ok_shape sys agent o res h
  rw [hsys]
  constructor
  · exact ⟨_, histOf_recordTrade_self sys.history o.sectorId _⟩
  · intro sid hne
    show (lookupAL (recordTrade sys.history o.sectorId _) sid).getD [] = _
    rw [histOf_recordTrade_ne _ _ _ _ hne]
    rfl

theorem executeTrade_historyBounded (sys : DynamicMarketSystem)
    (agent : AgentState) (o : TradeOrder) (hb : historyBounded sys) :
    historyBounded (executeTrade sys agent o).2.1 := by
  cases hres : (executeTrade sys agent o).1 with
  | error e =>
    intro sid
    rw [(executeTrade_error_frame sys agent o e hres).1]
    exact hb sid
  | ok res =>
    intro sid
    obtain ⟨⟨entry, hself⟩, hother⟩ := executeTrade_histOf_ok sys agent o res hres
    by_cases hsid : sid = o.sectorId
    · subst hsid
      rw [hself]
      exact pushHistory_length _ _
    · rw [hother sid hsid]
      exact hb sid

theorem addLine_step (t : TerminalState) (c : String × String × String)
    (hwf : t.lineCount = t.lines.length) (hle : t.lines.length ≤ t.maxLines) :
    (TerminalManager.addLine t c).lines =
      (t.lines ++ [mkLine c]).drop (t.lines.length + 1 - t.maxLines) ∧
    (TerminalManager.addLine t c).lineCount = min (t.lines.length + 1) t.maxLines ∧
    (TerminalManager.addLine t c).maxLines = t.maxLines := by
  unfold TerminalManager.addLine
  split_ifs with h
  · have hlm : t.lines.length = t.maxLines := by omega
    cases hl : t.lines ++ [mkLine c] with
    | nil => exact absurd hl (by simp)
    | cons a rest =>
      refine ⟨?_, ?_, rfl⟩
      · have hone : t.lines.length + 1 - t.maxLines = 1 := by omega
        rw [hone]
        rfl
      · show t.lineCount = min (t.lines.length + 1) t.maxLines
        omega
  · refine ⟨?_, ?_, rfl⟩
    · have hzero : t.lines.length + 1 - t.maxLines = 0 := by omega
      rw [hzero, List.drop_zero]
    · show t.lineCount + 1 = min (t.lines.length + 1) t.maxLines
      omega

theorem addLines_spec (cs : List (String × String × String)) :
    ∀ t : TerminalState,
    t.lineCount = t.lines.length → t.lines.length ≤ t.maxLines →
    (TerminalManager.addLines t cs).lines =
      (t.lines ++ cs.map mkLine).drop (t.lines.length + cs.length - t.maxLines) ∧
    (TerminalManager.addLines t cs).lineCount =
      min (t.lines.length + cs.length) t.maxLines ∧
    (TerminalManager.addLines t cs).maxLines = t.maxLines := by
  induction cs with
  | nil =>
    intro t hwf hle
    refine ⟨?_, ?_, rfl⟩
    · simp only [List.length_nil, List.map_nil, List.append_nil, Nat.add_zero]
      have hzero : t.lines.length - t.maxLines = 0 := by omega
      rw [hzero, List.drop_zero]
      rfl
    · show t.lineCount = min (t.lines.length + ([] : List (String × String × String)).length)
        t.maxLines
      simp only [List.length_nil]
      omega
  | cons c cs ih =>
    intro t hwf hle
    obtain ⟨hl1, hl2, hl3⟩ := addLine_step t c hwf hle
    have hlen' : (TerminalManager.addLine t c).lines.length =
        min (t.lines.length + 1) t.maxLines := by
      rw [hl1, List.length_drop, List.length_append]
      simp
      omega
    have hwf' : (TerminalManager.addLine t c).lineCount =
        (TerminalManager.addLine t c).lines.length := by
      rw [hl2, hlen']
    have hle' : (TerminalManager.addLine t c).lines.length ≤
        (TerminalManager.addLine t c).maxLines := by
      rw [hlen', hl3]
      omega
    obtain ⟨H1, H2, H3⟩ := ih (TerminalManager.addLine t c) hwf' hle'
    refine ⟨?_, ?_, ?_⟩
    · show (TerminalManager.addLines (TerminalManager.addLine t c) cs).lines = _
      rw [H1, hlen', hl1, hl3]
      have hk : t.lines.length + 1 - t.maxLines ≤ (t.lines ++ [mkLine c]).length := by
        simp
      rw [← List.drop_append_of_le_length hk, List.drop_drop, List.append_assoc]
      have hidx : t.lines.length + 1 - t.maxLines +
            (min (t.lines.length + 1) t.maxLines + cs.length - t.maxLines) =
          t.lines.length + (c :: cs).length - t.maxLines := by
        simp only [List.length_cons]
        omega
      rw [show [mkLine c] ++ cs.map mkLine = (c :: cs).map mkLine from rfl]
      rw [hidx]
    · show (TerminalManager.addLines (TerminalManager.addLine t c) cs).lineCount = _
      rw [H2, hlen', hl3]
      simp only [List.length_cons]
      omega
    · show (TerminalManager.addLines (TerminalManager.addLine t c) cs).maxLines = _
      rw [H3, hl3]

theorem addLine_getLast (t : TerminalState) (c : String × String × String)
    (hwf : t.lineCount = t.lines.length) (hmax : 1 ≤ t.maxLines) :
    (TerminalManager.addLine t c).lines.getLast? = some (mkLine c) := by
  unfold TerminalManager.addLine
  split_ifs with h
  · have hlen : 1 ≤ t.lines.length := by omega
    cases hl : t.lines with
    | nil => rw [hl] at hlen; exact absurd hlen (by simp)
    | cons a l' =>
      simp only [List.cons_append]
      show (l' ++ [mkLine c]).getLast? = some (mkLine c)
      exact List.getLast?_concat _
  · show (t.lines ++ [mkLine c]).getLast? = some (mkLine c)
    exact List.getLast?_concat _

theorem sampleSystem_priceInBounds : priceInBounds sampleSystem := by
  intro sid cid md c hmd hc
  by_cases h : ((1, 0) : Nat × Nat) = (sid, cid)
  · obtain ⟨h1, h2⟩ := Prod.mk.injEq 1 0 sid cid |>.mp h
    subst h1; subst h2
    have hmd' : md = sampleMD := by simpa [sampleSystem, lookupAL] using hmd.symm
    have hc' : c = foodCommodity := by
      simpa [sampleSystem, findCommodity, foodCommodity, List.find?] using hc.symm
    subst hmd'; subst hc'
    constructor <;> norm_num [floorPrice, ceilingPrice, sampleMD, foodCommodity]
  · exfalso
    simp [sampleSystem, lookupAL, h] at hmd

theorem sampleSystem_basePos : ∀ c ∈ sampleSystem.catalog, 0 < c.basePrice := by
  intro c hc
  simp only [sampleSystem, List.mem_singleton] at hc
  subst hc
  norm_num [foodCommodity]

/-! ## Claim theorems -/

/-- C1: for every turn and every (sector, commodity) pair with existing
MarketData, the current price stays within [floor price, ceiling price]
(floor = 10% of base price, ceiling = 500%); the invariant is preserved by
every `advance_turn` (including iterated turns) and every `execute_trade`. -/
theorem price_bounds_invariant (sys : DynamicMarketSystem)
    (hbase : ∀ c ∈ sys.catalog, 0 < c.basePrice) (hsys : priceInBounds sys) :
    (∀ t, priceInBounds (advanceTurn sys t)) ∧
    (∀ agent o, priceInBounds (executeTrade sys agent o).2.1) ∧
    (∀ t n, priceInBounds (advanceTurns sys t n)) :=
  ⟨fun t => advanceTurn_priceInBounds sys hbase hsys t,
   fun agent o => executeTrade_priceInBounds sys hsys agent o,
   fun t n => advanceTurns_priceInBounds n sys t hbase hsys⟩

/-- Witness for C1 at the concrete scenario-1 system. -/
theorem price_bounds_invariant_witness :
    priceInBounds (advanceTurn sampleSystem 1) ∧
    priceInBounds (executeTrade sampleSystem ⟨1000, 0⟩ ⟨7, 1, 0, 10, true⟩).2.1 ∧
    priceInBounds (advanceTurns sampleSystem 1 3) := by
  have h := price_bounds_invariant sampleSystem sampleSystem_basePos
    sampleSystem_priceInBounds
  exact ⟨h.1 1, h.2.1 ⟨1000, 0⟩ ⟨7, 1, 0, 10, true⟩, h.2.2 1 3⟩

/-- C2: a TradeOrder that fails any validation step leaves market supply,
demand, the MarketHistory log, and the agent's credits and holdings exactly
unchanged — no partial application of the market-side mutations occurs on
any error path. -/
theorem trade_atomicity (sys : DynamicMarketSystem) (agent : AgentState)
    (o : TradeOrder) (e : TradeError)
    (h : (executeTrade sys agent o).1 = .error e) :
    (executeTrade sys agent o).2.1.marketData = sys.marketData ∧
    (executeTrade sys agent o).2.1.history = sys.history ∧
    (executeTrade sys agent o).2.1 = sys ∧
    (executeTrade sys agent o).2.2 = agent := by
  obtain ⟨h1, h2⟩ := executeTrade_error_frame sys agent o e h
  exact ⟨by rw [h1], by rw [h1], h1, h2⟩

/-- Witness for C2 at concrete scenario 2: selling 5 while holding 3 fails
with `InsufficientInventoryError` and leaves system and agent untouched. -/
theorem trade_atomicity_witness :
    (executeTrade sampleSystem ⟨1000, 3⟩ ⟨7, 1, 0, 5, false⟩).1 =
      .error .InsufficientInventoryError ∧
    (executeTrade sampleSystem ⟨1000, 3⟩ ⟨7, 1, 0, 5, false⟩).2.1 = sampleSystem ∧
    (executeTrade sampleSystem ⟨1000, 3⟩ ⟨7, 1, 0, 5, false⟩).2.2 = ⟨1000, 3⟩ :=
  ⟨rfl,
   (trade_atomicity sampleSystem ⟨1000, 3⟩ ⟨7, 1, 0, 5, false⟩
      .InsufficientInventoryError rfl).2.2.1,
   (trade_atomicity sampleSystem ⟨1000, 3⟩ ⟨7, 1, 0, 5, false⟩
      .InsufficientInventoryError rfl).2.2.2⟩

/-- C3: a successful buy of quantity q at unit price p debits the agent
exactly p×q and decrements market supply exactly by q; a successful sell
credits exactly p×q and increments supply by q. -/
theorem trade_conservation (sys : DynamicMarketSystem) (agent : AgentState)
    (o : TradeOrder) (res : TradeResult)
    (h : (executeTrade sys agent o).1 = .ok res) :
    ∃ md, lookupAL sys.marketData (o.sectorId, o.commodityId) = some md ∧
      res.unitPrice = md.price ∧
      (o.isBuy = true →
        (executeTrade sys agent o).2.2.credits =
          agent.credits - res.unitPrice * o.quantity.num.toNat ∧
        o.quantity.num.toNat ≤ md.supply ∧
        (lookupAL (executeTrade sys agent o).2.1.marketData
            (o.sectorId, o.commodityId)).map (fun m => m.supply) =
          some (md.supply - o.quantity.num.toNat)) ∧
      (o.isBuy = false →
        (executeTrade sys agent o).2.2.credits =
          agent.credits + res.unitPrice * o.quantity.num.toNat ∧
        (lookupAL (executeTrade sys agent o).2.1.marketData
            (o.sectorId, o.commodityId)).map (fun m => m.supply) =
          some (md.supply + o.quantity.num.toNat)) := by
  obtain ⟨md, hmd, hup, hq, hsys, hbuy, hsell⟩ :=
    executeTrade_ok_shape sys agent o res h
  refine ⟨md, hmd, hup, ?_, ?_⟩
  · intro hb
    obtain ⟨hf, hsup, hagent, hres⟩ := hbuy hb
    refine ⟨?_, Nat.not_lt.mp hsup, ?_⟩
    · rw [hagent, hup]
    · rw [hsys]
      simp [applyTrade, hb, lookupAL_updateAL_self _ _ _ _ hmd]
  · intro hb
    obtain ⟨hinv, hagent, hres⟩ := hsell hb
    refine ⟨?_, ?_⟩
    · rw [hagent, hup]
    · rw [hsys]
      simp [applyTrade, hb, lookupAL_updateAL_self _ _ _ _ hmd]

/-- Witness for C3 at concrete scenario 1: a buy of 10 Food at price 50
with 1000 credits succeeds, credits are debited 500 and supply becomes 90. -/
theorem trade_conservation_witness :
    (executeTrade sampleSystem ⟨1000, 0⟩ ⟨7, 1, 0, 10, true⟩).2.2.credits = 500 ∧
    (lookupAL (executeTrade sampleSystem ⟨1000, 0⟩ ⟨7, 1, 0, 10, true⟩).2.1.marketData
        (1, 0)).map (fun m => m.supply) = some 90 := by
  have hok : (executeTrade sampleSystem ⟨1000, 0⟩ ⟨7, 1, 0, 10, true⟩).1 =
      .ok ⟨50, 500, 90, 102⟩ := by
    norm_num [executeTrade, sampleSystem, sampleMD, foodCommodity, lookupAL,
      findCommodity, List.find?, applyTrade, demandBump, Rat.num_ofNat,
      show (10 : ℤ).toNat = 10 from rfl]
  obtain ⟨md, hmd, hup, hbuy, -⟩ :=
    trade_conservation sampleSystem ⟨1000, 0⟩ ⟨7, 1, 0, 10, true⟩ _ hok
  have hmd' : md = sampleMD := by
    simpa [sampleSystem, lookupAL] using hmd.symm
  subst hmd'
  obtain ⟨hcred, hle10, hsup⟩ := hbuy rfl
  constructor
  · rw [hcred, hup]
    norm_num [sampleMD, Rat.num_ofNat, show (10 : ℤ).toNat = 10 from rfl]
  · rw [hsup]
    norm_num [sampleMD, show (10 : ℤ).toNat = 10 from rfl]

/-- C4: `execute_trade` validates in the stated order and returns the typed
error of the first failing check: missing sector/commodity/market entry
gives `UnknownMarketError`; a non-positive or non-integer quantity gives
`InvalidQuantityError`; a buy with credits below price×quantity gives
`InsufficientFundsError`; a buy exceeding supply gives
`InsufficientSupplyError`; a sell exceeding the holding gives
`InsufficientInventoryError`. -/
theorem trade_validation_order (sys : DynamicMarketSystem) (agent : AgentState)
    (o : TradeOrder) :
    ((lookupAL sys.sectors o.sectorId = none ∨
        findCommodity sys.catalog o.commodityId = none ∨
        lookupAL sys.marketData (o.sectorId, o.commodityId) = none) →
      (executeTrade sys agent o).1 = .error .UnknownMarketError) ∧
    (∀ sec c md, lookupAL sys.sectors o.sectorId = some sec →
      findCommodity sys.catalog o.commodityId = some c →
      lookupAL sys.marketData (o.sectorId, o.commodityId) = some md →
      (¬(0 < o.quantity ∧ o.quantity.den = 1) →
        (executeTrade sys agent o).1 = .error .InvalidQuantityError) ∧
      ((0 < o.quantity ∧ o.quantity.den = 1) →
        (o.isBuy = true →
          (agent.credits < md.price * o.quantity.num.toNat →
            (executeTrade sys agent o).1 = .error .InsufficientFundsError) ∧
          (¬ agent.credits < md.price * o.quantity.num.toNat →
            md.supply < o.quantity.num.toNat →
            (executeTrade sys agent o).1 = .error .InsufficientSupplyError)) ∧
        (o.isBuy = false → agent.holding < o.quantity.num.toNat →
          (executeTrade sys agent o).1 = .error .InsufficientInventoryError))) := by
  constructor
  · intro h
    unfold executeTrade
    cases hs : lookupAL sys.sectors o.sectorId <;>
      cases hc : findCommodity sys.catalog o.commodityId <;>
        cases hm : lookupAL sys.marketData (o.sectorId, o.commodityId) <;>
          simp_all
  · intro sec c md hs hc hm
    refine ⟨?_, ?_⟩
    · intro hq
      simp [executeTrade, hs, hc, hm, hq]
    · intro hq
      refine ⟨?_, ?_⟩
      · intro hb
        refine ⟨?_, ?_⟩
        · intro hlt
          simp [executeTrade, hs, hc, hm, hq, hb, hlt]
        · intro hnlt hsup
          simp [executeTrade, hs, hc, hm, hq, hb, hnlt, hsup]
      · intro hb hinv
        simp [executeTrade, hs, hc, hm, hq, hb, hinv]

/-- Witness for C4: one concrete order per validation failure, all against
the scenario-1 system. -/
theorem trade_validation_order_witness :
    (executeTrade sampleSystem ⟨0, 0⟩ ⟨7, 99, 0, 1, true⟩).1 =
      .error .UnknownMarketError ∧
    (executeTrade sampleSystem ⟨1000, 0⟩ ⟨7, 1, 0, 0, true⟩).1 =
      .error .InvalidQuantityError ∧
    (executeTrade sampleSystem ⟨100, 0⟩ ⟨7, 1, 0, 10, true⟩).1 =
      .error .InsufficientFundsError ∧
    (executeTrade sampleSystem ⟨100000, 0⟩ ⟨7, 1, 0, 200, true⟩).1 =
      .error .InsufficientSupplyError ∧
    (executeTrade sampleSystem ⟨1000, 3⟩ ⟨7, 1, 0, 5, false⟩).1 =
      .error .InsufficientInventoryError := by
  refine ⟨?_, ?_, ?_, ?_, ?_⟩
  · exact (trade_validation_order sampleSystem ⟨0, 0⟩ ⟨7, 99, 0, 1, true⟩).1
      (Or.inl rfl)
  · exact ((trade_validation_order sampleSystem ⟨1000, 0⟩ ⟨7, 1, 0, 0, true⟩).2
      sampleSector foodCommodity sampleMD rfl rfl rfl).1 (by norm_num)
  · exact (((trade_validation_order sampleSystem ⟨100, 0⟩ ⟨7, 1, 0, 10, true⟩).2
      sampleSector foodCommodity sampleMD rfl rfl rfl).2 (by norm_num)).1 rfl
        |>.1 (by norm_num [sampleMD, Rat.num_ofNat,
          show (10 : ℤ).toNat = 10 from rfl])
  · exact (((trade_validation_order sampleSystem ⟨100000, 0⟩
      ⟨7, 1, 0, 200, true⟩).2 sampleSector foodCommodity sampleMD
        rfl rfl rfl).2 (by norm_num)).1 rfl
        |>.2 (by norm_num [sampleMD, Rat.num_ofNat,
            show (200 : ℤ).toNat = 200 from rfl])
          (by norm_num [sampleMD, Rat.num_ofNat,
            show (200 : ℤ).toNat = 200 from rfl])
  · exact (((trade_validation_order sampleSystem ⟨1000, 3⟩
      ⟨7, 1, 0, 5, false⟩).2 sampleSector foodCommodity sampleMD
        rfl rfl rfl).2 (by norm_num)).2 rfl
        (by norm_num [show (5 : ℤ).toNat = 5 from rfl])

/-- C5: `execute_trade` never changes the quoted price of any MarketData
entry, and every successful trade executes at the entry's stored price —
so all trades between two `advance_turn` calls share the same quoted
price, and only `advance_turn` recomputes it. -/
theorem trade_price_constant (sys : DynamicMarketSystem) (agent : AgentState)
    (o : TradeOrder) :
    (∀ k, (lookupAL (executeTrade sys agent o).2.1.marketData k).map
        (fun m => m.price) =
      (lookupAL sys.marketData k).map (fun m => m.price)) ∧
    (∀ res, (executeTrade sys agent o).1 = .ok res →
      (lookupAL sys.marketData (o.sectorId, o.commodityId)).map
          (fun m => m.price) = some res.unitPrice) := by
  refine ⟨executeTrade_price_frame sys agent o, ?_⟩
  intro res h
  obtain ⟨md, hmd, hup, -⟩ := executeTrade_ok_shape sys agent o res h
  simp [hmd, hup]

/-- Witness for C5 at concrete scenario 1. -/
theorem trade_price_constant_witness :
    (lookupAL (executeTrade sampleSystem ⟨1000, 0⟩
        ⟨7, 1, 0, 10, true⟩).2.1.marketData (1, 0)).map (fun m => m.price) =
      (lookupAL sampleSystem.marketData (1, 0)).map (fun m => m.price) ∧
    (lookupAL sampleSystem.marketData (1, 0)).map (fun m => m.price) =
      some 50 := by
  have h := trade_price_constant sampleSystem ⟨1000, 0⟩ ⟨7, 1, 0, 10, true⟩
  refine ⟨h.1 (1, 0), ?_⟩
  have hok : (executeTrade sampleSystem ⟨1000, 0⟩ ⟨7, 1, 0, 10, true⟩).1 =
      .ok ⟨50, 500, 90, 102⟩ := by
    norm_num [executeTrade, sampleSystem, sampleMD, foodCommodity, lookupAL,
      findCommodity, List.find?, applyTrade, demandBump, Rat.num_ofNat,
      show (10 : ℤ).toNat = 10 from rfl]
  simpa using h.2 ⟨50, 500, 90, 102⟩ hok

/-- C6: an EconomicEvent with duration d influences exactly d turns:
adding an already-expired (duration-zero) event changes nothing about
`advance_turn`; every event surviving a turn has strictly positive,
strictly decreased duration (durations can never go negative); and a
single event of duration d is still present after n < d turns (with
duration d - n) and purged thereafter. -/
theorem event_expiry (sys : DynamicMarketSystem) (t : Nat) :
    (∀ e, e.remainingDuration = 0 →
      advanceTurn (addEvent sys e) t = advanceTurn sys t) ∧
    (∀ e', e' ∈ (advanceTurn sys t).events →
      0 < e'.remainingDuration ∧
      ∃ e ∈ sys.events, e'.remainingDuration + 1 = e.remainingDuration) ∧
    (∀ e n, sys.events = [e] → 0 < e.remainingDuration →
      (advanceTurns sys t n).events =
        if n < e.remainingDuration then
          [{ e with remainingDuration := e.remainingDuration - n }]
        else []) := by
  refine ⟨fun e he => advanceTurn_expired sys e t he, ?_,
    fun e n h hd => advanceTurns_single_event n sys t e h hd⟩
  intro e' he'
  have hmem : e' ∈ tickEvents sys.events := he'
  unfold tickEvents at hmem
  obtain ⟨a, ha, hfa⟩ := List.mem_filterMap.mp hmem
  by_cases h2 : 2 ≤ a.remainingDuration
  · rw [if_pos h2] at hfa
    have heq : { a with remainingDuration := a.remainingDuration - 1 } = e' := by
      injection hfa
    constructor
    · rw [← heq]
      show 0 < a.remainingDuration - 1
      omega
    · refine ⟨a, ha, ?_⟩
      rw [← heq]
      show a.remainingDuration - 1 + 1 = a.remainingDuration
      omega
  · rw [if_neg h2] at hfa
    exact absurd hfa (by simp)

/-- Witness for C6: the expired sample event changes nothing; after one
turn the two-turn shortage event survives with duration 1; after two turns
it is gone. -/
theorem event_expiry_witness :
    advanceTurn (addEvent sampleSystem expiredEvent) 1 = advanceTurn sampleSystem 1 ∧
    (0 < ({ sampleEvent with remainingDuration := 1 } : EconomicEvent).remainingDuration ∧
      ∃ e ∈ (addEvent sampleSystem sampleEvent).events,
        ({ sampleEvent with remainingDuration := 1 } : EconomicEvent).remainingDuration + 1 =
          e.remainingDuration) ∧
    (advanceTurns (addEvent sampleSystem sampleEvent) 1 2).events = [] := by
  refine ⟨(event_expiry sampleSystem 1).1 expiredEvent rfl, ?_, ?_⟩
  · exact (event_expiry (addEvent sampleSystem sampleEvent) 1).2.1
      { sampleEvent with remainingDuration := 1 }
      (by rw [show (advanceTurn (addEvent sampleSystem sampleEvent) 1).events =
          [{ sampleEvent with remainingDuration := 1 }] from rfl]
          exact List.mem_singleton.mpr rfl)
  · have h3 := (event_expiry (addEvent sampleSystem sampleEvent) 1).2.2
      sampleEvent 2 rfl (by decide)
    simpa [sampleEvent] using h3

/-- C7: per-sector history is a capacity-bounded FIFO: a pure sequence of
appends retains exactly the most recent `historyCapacity` entries newest
first; `execute_trade` preserves the bound and appends exactly one entry on
success; `get_history` returns a newest-first segment of at most
`historyCapacity` entries. -/
theorem history_bound :
    (∀ es : List HistoryEntry,
      es.foldl pushHistory [] = es.reverse.take historyCapacity) ∧
    (∀ sys agent o, historyBounded sys →
      historyBounded (executeTrade sys agent o).2.1) ∧
    (∀ sys sid limit, get_history sys sid limit = (histOf sys sid).take limit) ∧
    (∀ sys sid limit, historyBounded sys →
      (get_history sys sid limit).length ≤ historyCapacity) ∧
    (∀ sys agent o res, (executeTrade sys agent o).1 = .ok res →
      ∃ entry, histOf (executeTrade sys agent o).2.1 o.sectorId =
        pushHistory (histOf sys o.sectorId) entry) := by
  refine ⟨?_, ?_, ?_, ?_, ?_⟩
  · intro es
    rw [foldl_pushHistory es [] (by simp), List.append_nil]
  · exact fun sys agent o hb => executeTrade_historyBounded sys agent o hb
  · intro sys sid limit
    rfl
  · intro sys sid limit hb
    have h1 : (get_history sys sid limit).length ≤ (histOf sys sid).length := by
      show ((histOf sys sid).take limit).length ≤ (histOf sys sid).length
      simp
    exact le_trans h1 (hb sid)
  · exact fun sys agent o res h => (executeTrade_histOf_ok sys agent o res h).1

/-- Witness for C7 at concrete scenario 1: the scenario system is bounded,
stays bounded through a successful buy, and that buy appends one entry. -/
theorem history_bound_witness :
    historyBounded (executeTrade sampleSystem ⟨1000, 0⟩ ⟨7, 1, 0, 10, true⟩).2.1 ∧
    (get_history sampleSystem 1 5).length ≤ historyCapacity ∧
    (∃ entry, histOf (executeTrade sampleSystem ⟨1000, 0⟩
        ⟨7, 1, 0, 10, true⟩).2.1 1 = pushHistory (histOf sampleSystem 1) entry) := by
  have hb : historyBounded sampleSystem := by
    intro sid
    simp [histOf, sampleSystem, lookupAL, historyCapacity]
  have hok : (executeTrade sampleSystem ⟨1000, 0⟩ ⟨7, 1, 0, 10, true⟩).1 =
      .ok ⟨50, 500, 90, 102⟩ := by
    norm_num [executeTrade, sampleSystem, sampleMD, foodCommodity, lookupAL,
      findCommodity, List.find?, applyTrade, demandBump, Rat.num_ofNat,
      show (10 : ℤ).toNat = 10 from rfl]
  exact ⟨history_bound.2.1 sampleSystem ⟨1000, 0⟩ ⟨7, 1, 0, 10, true⟩ hb,
    history_bound.2.2.2.1 sampleSystem 1 5 hb,
    history_bound.2.2.2.2 sampleSystem ⟨1000, 0⟩ ⟨7, 1, 0, 10, true⟩
      ⟨50, 500, 90, 102⟩ hok⟩

/-- C8 counterexample: for the failing response whose message is *present*
but empty, the client renders the fixed fallback `'Trade failed'`, not the
supplied message verbatim — JavaScript `||` treats the empty string as
falsy, so the fallback fires although a message is present. -/
theorem trade_failure_rendering_counterexample :
    (GameEngine.renderTradeResponse initTerminal ⟨false, some ""⟩).lines =
      [{ cls := "terminal-line error", promptText := "ERROR>",
         contentText := "Trade failed" }] ∧
    ¬ (GameEngine.renderTradeResponse initTerminal ⟨false, some ""⟩).lines =
      [{ cls := "terminal-line error", promptText := "ERROR>",
         contentText := "" }] := by
  constructor
  · rfl
  · intro h
    exact absurd h (by decide)

/-- C8 (amended): for every failing trade response, the client renders the
server-supplied reason verbatim as plain text (via `textContent`, never
parsed as HTML) whenever the message is present and non-empty; it falls
back to the fixed text `'Trade failed'` when the message is absent *or
empty* (the empty string is falsy under JavaScript `||`). -/
theorem trade_failure_rendering (t : TerminalState) (r : TradeResponse)
    (hwf : t.lineCount = t.lines.length) (hmax : 1 ≤ t.maxLines)
    (hfail : r.success = false) :
    (∀ s, r.message = some s → s ≠ "" →
      (GameEngine.renderTradeResponse t r).lines.getLast? =
        some { cls := "terminal-line error", promptText := "ERROR>",
               contentText := s }) ∧
    ((r.message = none ∨ r.message = some "") →
      (GameEngine.renderTradeResponse t r).lines.getLast? =
        some { cls := "terminal-line error", promptText := "ERROR>",
               contentText := "Trade failed" }) := by
  have hrender : GameEngine.renderTradeResponse t r =
      TerminalManager.addLine t ("ERROR", jsOr r.message "Trade failed",
        "error") := by
    unfold GameEngine.renderTradeResponse
    rw [hfail]
    simp
  constructor
  · intro s hs hne
    rw [hrender, addLine_getLast t _ hwf hmax]
    simp [mkLine, jsOr, hs, hne]
  · intro hm
    rw [hrender, addLine_getLast t _ hwf hmax]
    rcases hm with hm | hm <;> simp [mkLine, jsOr, hm]

/-- Witness for C8 (amended): a present non-empty reason is rendered
verbatim; an absent message falls back to `'Trade failed'`. -/
theorem trade_failure_rendering_witness :
    (GameEngine.renderTradeResponse initTerminal
        ⟨false, some "insufficient supply: requested 50, available 12"⟩).lines.getLast? =
      some { cls := "terminal-line error", promptText := "ERROR>",
             contentText := "insufficient supply: requested 50, available 12" } ∧
    (GameEngine.renderTradeResponse initTerminal ⟨false, none⟩).lines.getLast? =
      some { cls := "terminal-line error", promptText := "ERROR>",
             contentText := "Trade failed" } := by
  constructor
  · exact (trade_failure_rendering initTerminal
      ⟨false, some "insufficient supply: requested 50, available 12"⟩
      rfl (by decide) rfl).1 _ rfl (by decide)
  · exact (trade_failure_rendering initTerminal ⟨false, none⟩
      rfl (by decide) rfl).2 (Or.inl rfl)

/-- C9: the terminal's `lineCount` never exceeds `maxLines`: each
`addLine` call preserves the bound, and from the initial terminal
(`maxLines = 100`) any sequence of calls retains exactly the most recent
at-most-100 lines, oldest evicted first. -/
theorem terminal_line_bound :
    (∀ (t : TerminalState) (c : String × String × String),
      t.lineCount ≤ t.maxLines →
      (TerminalManager.addLine t c).lineCount ≤ t.maxLines) ∧
    (∀ cs, (TerminalManager.addLines initTerminal cs).lineCount ≤ 100 ∧
      (TerminalManager.addLines initTerminal cs).lines =
        (cs.map mkLine).drop (cs.length - 100)) := by
  constructor
  · intro t c hle
    unfold TerminalManager.addLine
    split_ifs with h
    · cases hl : t.lines ++ [mkLine c] with
      | nil => exact absurd hl (by simp)
      | cons a rest =>
        show t.lineCount ≤ t.maxLines
        exact hle
    · show t.lineCount + 1 ≤ t.maxLines
      omega
  · intro cs
    obtain ⟨H1, H2, H3⟩ := addLines_spec cs initTerminal rfl (by simp [initTerminal])
    constructor
    · rw [H2]
      simp [initTerminal]
    · rw [H1]
      simp [initTerminal]

/-- Witness for C9: the bound-preservation step at the initial terminal. -/
theorem terminal_line_bound_witness :
    (TerminalManager.addLine initTerminal ("SYSTEM", "hello", "info")).lineCount ≤
      initTerminal.maxLines :=
  terminal_line_bound.1 initTerminal ("SYSTEM", "hello", "info") (by decide)

/-- C10: `refuelShip` debits exactly 100 credits and sets fuel to
`max_fuel` exactly when the player's credits are at least 100; with fewer
credits it prints `'Insufficient credits for refuel'` and leaves the player
(credits and fuel) unchanged. -/
theorem refuel_rule (p : Player) (t : TerminalState)
    (hwf : t.lineCount = t.lines.length) (hle : t.lines.length ≤ t.maxLines)
    (hmax : 1 ≤ t.maxLines) :
    (100 ≤ p.credits →
      (GameEngine.refuelShip p t).1 =
        { p with credits := p.credits - 100, fuel := p.max_fuel } ∧
      (GameEngine.refuelShip p t).2.2 = true) ∧
    (p.credits < 100 →
      (GameEngine.refuelShip p t).1 = p ∧
      (GameEngine.refuelShip p t).2.2 = false ∧
      (GameEngine.refuelShip p t).2.1.lines.getLast? =
        some { cls := "terminal-line error", promptText := "ERROR>",
               contentText := "Insufficient credits for refuel" }) ∧
    ((GameEngine.refuelShip p t).2.2 = true ↔ 100 ≤ p.credits) := by
  obtain ⟨hs1, hs2, hs3⟩ :=
    addLine_step t ("SYSTEM", "Initiating refuel sequence...", "info") hwf hle
  have hwf1 : (TerminalManager.addLine t
      ("SYSTEM", "Initiating refuel sequence...", "info")).lineCount =
      (TerminalManager.addLine t
        ("SYSTEM", "Initiating refuel sequence...", "info")).lines.length := by
    rw [hs1, hs2, List.length_drop, List.length_append]
    simp
    omega
  have hmax1 : 1 ≤ (TerminalManager.addLine t
      ("SYSTEM", "Initiating refuel sequence...", "info")).maxLines := by
    rw [hs3]
    exact hmax
  simp only [GameEngine.refuelShip]
  split_ifs with hc
  · refine ⟨fun _ => ⟨rfl, rfl⟩, fun hlt => absurd hc (not_le.mpr hlt), ?_⟩
    simp [hc]
  · refine ⟨fun hge => absurd hge hc, fun _ => ⟨rfl, rfl, ?_⟩, ?_⟩
    · rw [addLine_getLast _ _ hwf1 hmax1]
      rfl
    · simp [hc]

/-- Witness for C10: refuelling with 150 credits succeeds and costs 100;
with 50 credits it fails, changes nothing and prints the error line. -/
theorem refuel_rule_witness :
    (GameEngine.refuelShip ⟨150, 10, 80⟩ initTerminal).1 = ⟨50, 80, 80⟩ ∧
    (GameEngine.refuelShip ⟨150, 10, 80⟩ initTerminal).2.2 = true ∧
    (GameEngine.refuelShip ⟨50, 10, 80⟩ initTerminal).1 = ⟨50, 10, 80⟩ ∧
    (GameEngine.refuelShip ⟨50, 10, 80⟩ initTerminal).2.2 = false := by
  have h1 := (refuel_rule ⟨150, 10, 80⟩ initTerminal rfl
    (by simp [initTerminal]) (by decide)).1 (by norm_num)
  have h2 := (refuel_rule ⟨50, 10, 80⟩ initTerminal rfl
    (by simp [initTerminal]) (by decide)).2.1 (by norm_num)
  refine ⟨?_, h1.2, h2.1, h2.2.1⟩
  rw [h1.1]
  norm_num

end LOGDTW
